import Mathlib

/-!
Shallow embedding of the news-digest pipeline of `daily_bot.py`
(text normalizer, item segmenter, relevance scorer and deduplicator,
punchy summarizer, Telegram message packer), together with theorems
settling the specification claims about it.

Python strings are modelled as `List Char` (one entry per code point,
so Python `len` is `List.length`).  Python `int` is `Int` where a
parameter can meaningfully be negative (`max_length`), `Nat` otherwise.
Regular-expression calls are embedded through a small backtracking
matcher (`matchRE`) that reproduces Python `re` semantics (leftmost
search position, alternation order, greedy and lazy quantifiers) for
the exact patterns appearing in the source.
-/

/-- Python `str` as a list of code points. -/
abbrev Str := List Char

/-- Python `\s` / `str.strip()` whitespace class (ASCII part, which is what
the feed content exercises). -/
def pyIsSpace (c : Char) : Bool :=
  c = ' ' || c = '\t' || c = '\n' || c = '\r' || c = '\x0b' || c = '\x0c'

/-- Python `str.strip()`: drop leading and trailing whitespace. -/
def pyStrip (s : Str) : Str :=
  ((s.dropWhile pyIsSpace).reverse.dropWhile pyIsSpace).reverse

/-- Python `str.replace(old, new)` for a single-character `old`, the only
form `daily_bot.py` uses (in `escape_markdown_v2`). -/
def pyReplaceChar (old : Char) (new : Str) : Str → Str
  | [] => []
  | c :: rest => (if c = old then new else [c]) ++ pyReplaceChar old new rest

/-- Python `'\n'.join(parts)`. -/
def joinNL : List Str → Str
  | [] => []
  | [p] => p
  | p :: rest => p ++ '\n' :: joinNL rest

/-- Python `' '.join(parts)`. -/
def joinSp : List Str → Str
  | [] => []
  | [p] => p
  | p :: rest => p ++ ' ' :: joinSp rest

/-- Python `str.lower()` (ASCII case fold, as exercised by the pipeline). -/
def pyLower (s : Str) : Str := s.map Char.toLower

/-- Boolean substring test, Python `needle in haystack`. -/
def isSubstr (needle : Str) : Str → Bool
  | [] => needle.isEmpty
  | c :: rest => needle.isPrefixOf (c :: rest) || isSubstr needle rest

/-- The characters `escape_markdown_v2` backslash-escapes, in source order
(`daily_bot.py` line 29).  The backtick and braces are written via
`Char.ofNat` (96, 123, 125). -/
def escapeChars : List Char :=
  ['_', '*', '[', ']', '(', ')', '~', Char.ofNat 96, '>', '#', '+', '-',
   '=', '|', Char.ofNat 123, Char.ofNat 125, '.', '!']

/-- Embedding of `escape_markdown_v2` (daily_bot.py lines 26-34): a left
fold of single-character replaces, one per special character. -/
def escape_markdown_v2 (text : Str) : Str :=
  escapeChars.foldl (fun s c => pyReplaceChar c ['\\', c] s) text

/-- Tag-removal pass of `clean_html`: Python `re.sub(r'<[^>]+>', '', text)`.
State machine form: `none` = outside a candidate tag, `some buf` = the
(reversed) pending characters since an opening `<`.  A `>` closes a tag
only when at least one character stands between (the `[^>]+`); an
unclosed `<` is emitted verbatim, as `re.sub` leaves it. -/
def stripTagsAux : Option Str → Str → Str
  | none, [] => []
  | some buf, [] => buf.reverse
  | none, c :: rest =>
      if c = '<' then stripTagsAux (some [c]) rest
      else c :: stripTagsAux none rest
  | some buf, c :: rest =>
      if c = '>' then
        if 2 ≤ buf.length then stripTagsAux none rest
        else buf.reverse ++ '>' :: stripTagsAux none rest
      else stripTagsAux (some (c :: buf)) rest

/-- Models Python `html.unescape` restricted to the five standard XML
entities; on input without `&` it is the identity, exactly as
`html.unescape` is.  (The full named-entity table is not exercised by any
claim.) -/
def htmlUnescape : Str → Str
  | [] => []
  | '&' :: 'a' :: 'm' :: 'p' :: ';' :: rest => '&' :: htmlUnescape rest
  | '&' :: 'l' :: 't' :: ';' :: rest => '<' :: htmlUnescape rest
  | '&' :: 'g' :: 't' :: ';' :: rest => '>' :: htmlUnescape rest
  | '&' :: 'q' :: 'u' :: 'o' :: 't' :: ';' :: rest => '"' :: htmlUnescape rest
  | '&' :: '#' :: '3' :: '9' :: ';' :: rest => Char.ofNat 39 :: htmlUnescape rest
  | c :: rest => c :: htmlUnescape rest

/-- Whitespace collapse of `clean_html`: Python `re.sub(r'\s+', ' ', text)`.
The flag records whether the previous character was whitespace (run open). -/
def collapseWsAux : Bool → Str → Str
  | _, [] => []
  | inRun, c :: rest =>
      if pyIsSpace c then
        if inRun then collapseWsAux true rest
        else ' ' :: collapseWsAux true rest
      else c :: collapseWsAux false rest

/-- Embedding of `clean_html` (daily_bot.py lines 1138-1151): strip tags,
decode entities, collapse whitespace runs to single spaces, strip ends. -/
def clean_html (text : Str) : Str :=
  pyStrip (collapseWsAux false (htmlUnescape (stripTagsAux none text)))

/-- The sentence-ending characters of the split patterns `[.!?]`. -/
def sentEnd (c : Char) : Bool := c = '.' || c = '!' || c = '?'

/-- Lookahead used by the segmenter split: does the maximal whitespace run
starting here end at an ASCII uppercase letter?  This decides whether
`(?<=[.!?])\s+(?=[A-Z])` matches at the current position. -/
def wsRunEndsUpper (s : Str) : Bool :=
  match s.dropWhile pyIsSpace with
  | [] => false
  | u :: _ => u.isUpper

/-- Embedding of `re.split(r'\n|(?<=[.!?])\s+(?=[A-Z])', content)`
(daily_bot.py line 1167) as a single left-to-right scan, matching
`re.split` semantics: at each position the `\n` alternative is tried
first; otherwise the lookbehind/lookahead alternative matches when the
previous character is in `[.!?]` and the whitespace run from here ends at
an uppercase letter, in which case the whole run is the separator.
`prevSent` records whether the previous character was in `[.!?]`;
`consuming` means we are inside a matched whitespace separator run. -/
def splitNewsAux : Bool → Bool → Str → Str → List Str
  | _, _, acc, [] => [acc.reverse]
  | prevSent, true, acc, c :: rest =>
      if pyIsSpace c then splitNewsAux prevSent true acc rest
      else splitNewsAux (sentEnd c) false (c :: acc) rest
  | prevSent, false, acc, c :: rest =>
      if c = '\n' then acc.reverse :: splitNewsAux false false [] rest
      else if prevSent && pyIsSpace c && wsRunEndsUpper (c :: rest) then
        acc.reverse :: splitNewsAux false true [] rest
      else splitNewsAux (sentEnd c) false (c :: acc) rest

/-- The candidate lines the segmenter produces from (already cleaned)
content. -/
def splitNews (s : Str) : List Str := splitNewsAux false false [] s

/-- Embedding of `re.split(r'[.!?]', text)` used by the summarizer's
sentence-boundary fallback. -/
def splitSentAux : Str → Str → List Str
  | acc, [] => [acc.reverse]
  | acc, c :: rest =>
      if sentEnd c then acc.reverse :: splitSentAux [] rest
      else splitSentAux (c :: acc) rest

/-- Python `re.split(r'[.!?]', text)`. -/
def splitSent (s : Str) : List Str := splitSentAux [] s

/-- Python `str.split()` (split on whitespace runs, no empty pieces). -/
def splitWsAux : Str → Str → List Str
  | acc, [] => if acc.isEmpty then [] else [acc.reverse]
  | acc, c :: rest =>
      if pyIsSpace c then
        if acc.isEmpty then splitWsAux [] rest
        else acc.reverse :: splitWsAux [] rest
      else splitWsAux (c :: acc) rest

/-- Python `text.split()`. -/
def splitWs (s : Str) : List Str := splitWsAux [] s

/-! ### A small backtracking regex matcher

Only the constructs the source patterns use: single-character classes,
case-insensitive literals, sequence, ordered alternation, counted
repetition of a character class (greedy or lazy), and capturing groups.
Captures are collected left to right; the source patterns never nest
groups, so capture order equals Python group order. -/

/-- Regex abstract syntax for the source's patterns. -/
inductive RE where
  | cls (p : Char → Bool)
  | litci (w : Str)
  | seq (a b : RE)
  | alt (a b : RE)
  | rep (p : Char → Bool) (lo : Nat) (hi : Option Nat) (lazyQ : Bool)
  | grp (r : RE)

/-- Case-insensitive prefix test for a literal alternative. -/
def ciStartsWith : Str → Str → Bool
  | [], _ => true
  | _ :: _, [] => false
  | a :: ra, b :: rb => a.toLower = b.toLower && ciStartsWith ra rb

/-- Try a list of repetition counts in order, resuming the continuation
after dropping that many characters; first success wins. -/
def tryCounts (s : Str) (caps : List Str)
    (k : Str → List Str → Option (List Str)) : List Nat → Option (List Str)
  | [] => none
  | n :: ns =>
      match k (s.drop n) caps with
      | some r => some r
      | none => tryCounts s caps k ns

/-- Backtracking matcher in continuation-passing style.  The continuation
receives the unconsumed input and the captures collected so far. -/
def matchRE : RE → Str → List Str → (Str → List Str → Option (List Str)) →
    Option (List Str)
  | RE.cls p, s, caps, k =>
      match s with
      | c :: rest => if p c then k rest caps else none
      | [] => none
  | RE.litci w, s, caps, k =>
      if ciStartsWith w s then k (s.drop w.length) caps else none
  | RE.seq a b, s, caps, k =>
      matchRE a s caps (fun s' caps' => matchRE b s' caps' k)
  | RE.alt a b, s, caps, k =>
      match matchRE a s caps k with
      | some r => some r
      | none => matchRE b s caps k
  | RE.rep p lo hi lazyQ, s, caps, k =>
      let avail := (s.takeWhile p).length
      let m := match hi with | none => avail | some h => min h avail
      if m < lo then none
      else
        let counts := List.range' lo (m - lo + 1)
        tryCounts s caps k (if lazyQ then counts else counts.reverse)
  | RE.grp r, s, caps, k =>
      matchRE r s caps
        (fun s' caps' => k s' (caps' ++ [s.take (s.length - s'.length)]))

/-- Python `re.search`: try a match at every position, leftmost first;
the match need not reach the end of the input.  Returns the captures. -/
def searchRE (r : RE) : Str → Option (List Str)
  | [] => matchRE r [] [] (fun _ caps => some caps)
  | c :: rest =>
      match matchRE r (c :: rest) [] (fun _ caps => some caps) with
      | some g => some g
      | none => searchRE r rest

/-- Ordered alternation of case-insensitive literals. -/
def altLits : List Str → RE
  | [] => RE.litci []
  | [w] => RE.litci w
  | w :: ws => RE.alt (RE.litci w) (altLits ws)

/-- Python `.` (no DOTALL): any character except newline. -/
def dotCls (c : Char) : Bool := !(c = '\n')

/-- Character class `[a-zA-Z\s&]` under `re.IGNORECASE`. -/
def cls1b (c : Char) : Bool := c.isAlpha || pyIsSpace c || c = '&'

/-- Character class `[a-zA-Z0-9\s-]` under `re.IGNORECASE`. -/
def cls2b (c : Char) : Bool := c.isAlpha || c.isDigit || pyIsSpace c || c = '-'

/-- Verb alternatives of the first summarizer pattern (daily_bot.py line 1236). -/
def verbs1 : List Str :=
  (["announced", "released", "launched", "introduced", "unveiled",
    "acquired", "raised", "secured"]).map String.data

/-- Verb alternatives of the second summarizer pattern (line 1238). -/
def verbs2 : List Str :=
  (["is", "are", "was", "were", "has", "have"]).map String.data

/-- Verb alternatives of the third summarizer pattern (line 1240). -/
def verbs3 : List Str :=
  (["reached", "achieved", "surpassed", "hit"]).map String.data

/-- Greedy `\s+`. -/
def wsSeq : RE := RE.rep pyIsSpace 1 none false

/-- Summarizer pattern 1:
`([A-Z][a-zA-Z\s&]+?)\s+(announced|...|secured)\s+(.{10,50})`, compiled
with `re.IGNORECASE` (so `[A-Z]` and `[a-zA-Z...]` both mean any ASCII
letter). -/
def pattern1 : RE :=
  RE.seq (RE.grp (RE.seq (RE.cls Char.isAlpha) (RE.rep cls1b 1 none true)))
    (RE.seq wsSeq
      (RE.seq (RE.grp (altLits verbs1))
        (RE.seq wsSeq (RE.grp (RE.rep dotCls 10 (some 50) false)))))

/-- Summarizer pattern 2:
`([A-Z][a-zA-Z0-9\s-]+?)\s+(is|are|was|were|has|have)\s+(.{10,50})`. -/
def pattern2 : RE :=
  RE.seq (RE.grp (RE.seq (RE.cls Char.isAlpha) (RE.rep cls2b 1 none true)))
    (RE.seq wsSeq
      (RE.seq (RE.grp (altLits verbs2))
        (RE.seq wsSeq (RE.grp (RE.rep dotCls 10 (some 50) false)))))

/-- Summarizer pattern 3:
`(.{10,30})\s+(reached|achieved|surpassed|hit)\s+(.{10,30})`. -/
def pattern3 : RE :=
  RE.seq (RE.grp (RE.rep dotCls 10 (some 30) false))
    (RE.seq wsSeq
      (RE.seq (RE.grp (altLits verbs3))
        (RE.seq wsSeq (RE.grp (RE.rep dotCls 10 (some 30) false)))))

/-- The pattern loop of `create_punchy_summary` (lines 1243-1248): search
each pattern in order; when one matches, return the space-join of its
groups provided that fits `max_length`, otherwise move to the next
pattern. -/
def tryPatternsGo (text : Str) (maxLength : Int) : List RE → Option Str
  | [] => none
  | p :: ps =>
      match searchRE p text with
      | some gs =>
          let summary := joinSp gs
          if (summary.length : Int) ≤ maxLength then some summary
          else tryPatternsGo text maxLength ps
      | none => tryPatternsGo text maxLength ps

/-- The extraction-pattern tier of `create_punchy_summary`. -/
def tryPatterns (text : Str) (maxLength : Int) : Option Str :=
  tryPatternsGo text maxLength [pattern1, pattern2, pattern3]

/-- Word-accumulation loop of `create_punchy_summary` (lines 1260-1266):
take whole words while the running length stays within
`max_length - 3` (room for the ellipsis). -/
def wordAccum (maxLength : Int) : List Str → Str → Str
  | [], acc => acc
  | w :: ws, acc =>
      if (acc.length : Int) + w.length + 1 ≤ maxLength - 3 then
        wordAccum maxLength ws (acc ++ w ++ [' '])
      else acc

/-- Last-resort word-boundary truncation of `create_punchy_summary`
(lines 1259-1268): accumulate words, strip, append `"..."`. -/
def wordTrunc (text : Str) (maxLength : Int) : Str :=
  pyStrip (wordAccum maxLength (splitWs text) []) ++ ("...").data

/-- Embedding of `create_punchy_summary` (daily_bot.py lines 1231-1268).
Order of tiers follows the source exactly: extraction patterns first,
then the `len(text) <= max_length` identity check, then a
sentence-boundary cut, then word-boundary truncation. -/
def create_punchy_summary (text : Str) (maxLength : Int) : Str :=
  match tryPatterns text maxLength with
  | some s => s
  | none =>
      if (text.length : Int) ≤ maxLength then text
      else
        match splitSent text with
        | s0 :: _ =>
            if (s0.length : Int) ≤ maxLength then pyStrip s0
            else wordTrunc text maxLength
        | [] => wordTrunc text maxLength


/-- The action keywords of `extract_news_items` (daily_bot.py lines
1170-1175); scoring checks `keyword in line_lower`. -/
def actionKeywords : List Str :=
  (["announced", "released", "launched", "introduced", "unveiled",
    "debuted", "published", "acquired", "raised", "secured",
    "partnered", "collaborated", "achieved", "reached", "surpassed",
    "developed", "created", "built", "deployed", "updated"]).map String.data

/-- The literal company/product alternatives of the company pattern
(lines 1178-1184); `Character\.AI` is the literal string
`Character.AI`, and `GPT-\d+` is handled separately. -/
def companyNames : List Str :=
  (["OpenAI", "Anthropic", "Google", "Microsoft", "Meta", "Apple",
    "Amazon", "NVIDIA", "Tesla", "DeepMind", "Stability AI",
    "Hugging Face", "Mistral", "Cohere", "Inflection", "Character.AI",
    "Midjourney", "RunwayML", "Perplexity", "Claude", "ChatGPT",
    "Gemini", "LLaMA", "DALL-E", "Copilot", "Bard"]).map String.data

/-- Python `\w`: word character for the `\b` boundaries (ASCII part). -/
def isWordChar (c : Char) : Bool := c.isAlphanum || c = '_'

/-- Left `\b` boundary: previous character absent or not a word
character (every alternative starts with a word character). -/
def boundaryBefore : Option Char → Bool
  | none => true
  | some c => !(isWordChar c)

/-- Right `\b` boundary: next character absent or not a word character
(every alternative ends with a word character). -/
def boundaryAfter : Str → Bool
  | [] => true
  | c :: _ => !(isWordChar c)

/-- Does the `GPT-\d+` alternative (case-insensitive, `\b` on the right)
match at the start of `s`? -/
def gptHere (s : Str) : Bool :=
  ciStartsWith (("GPT-").data) s &&
    (let rest := s.drop 4
     let ds := rest.takeWhile Char.isDigit
     !ds.isEmpty && boundaryAfter (rest.drop ds.length))

/-- Does some alternative of the company pattern match at the start of
`s` (with its right `\b`)?  Only existence matters, so alternation order
is irrelevant here. -/
def companyHere (s : Str) : Bool :=
  companyNames.any (fun w => ciStartsWith w s && boundaryAfter (s.drop w.length))
    || gptHere s

/-- Embedding of `re.search(company_pattern, line, re.IGNORECASE)` as a Boolean: scan
every position, tracking the previous character for the left `\b`. -/
def companySearchAux : Option Char → Str → Bool
  | _, [] => false
  | prev, c :: rest =>
      (boundaryBefore prev && companyHere (c :: rest))
        || companySearchAux (some c) rest

/-- Truthiness of the company-pattern search on a line. -/
def companySearch (s : Str) : Bool := companySearchAux none s

/-- Characters allowed inside the URL body class `[^\s\)<>\[\]]`. -/
def urlBodyChar (c : Char) : Bool :=
  !(pyIsSpace c || c = ')' || c = '<' || c = '>' || c = '[' || c = ']')

/-- Try the URL pattern `https?://[^\s\)<>\[\]]+(?:...)?` anchored at the
start of `s`.  The trailing optional group can always match empty after
the greedy `+`, so the match is the scheme plus the maximal run of body
characters (which must be non-empty). -/
def urlHere (s : Str) : Option Str :=
  if (("https://").data).isPrefixOf s then
    let run := (s.drop 8).takeWhile urlBodyChar
    if run.isEmpty then none else some ((("https://").data) ++ run)
  else if (("http://").data).isPrefixOf s then
    let run := (s.drop 7).takeWhile urlBodyChar
    if run.isEmpty then none else some ((("http://").data) ++ run)
  else none

/-- Embedding of `extract_url_from_text` (daily_bot.py lines 1154-1158):
leftmost position where the URL pattern matches (case-sensitive). -/
def extract_url_from_text : Str → Option Str
  | [] => none
  | c :: rest =>
      match urlHere (c :: rest) with
      | some u => some u
      | none => extract_url_from_text rest

/-- One extracted news item: `{'text': ..., 'url': ..., 'score': ...}`. -/
structure NewsItem where
  text : Str
  url : Option Str
  score : Nat
deriving DecidableEq, Repr

/-- Truthiness of `re.match(r'^[-•*]\s*', line)`: the line starts with a
bullet marker (`\s*` then matches trivially). -/
def bulletStart : Str → Bool
  | [] => false
  | c :: _ => c = '-' || c = '•' || c = '*'

/-- Truthiness of `re.match(r'^\d+\.\s*', line)`: one or more leading digits
followed by a dot. -/
def numberedStart (s : Str) : Bool :=
  !(s.takeWhile Char.isDigit).isEmpty &&
    (match s.dropWhile Char.isDigit with
     | '.' :: _ => true
     | _ => false)

/-- Embedding of `re.sub(r'^[-•*]\s*', '', line)`: drop one leading bullet marker and
the whitespace after it (the anchored pattern matches at most once). -/
def stripBulletMark (s : Str) : Str :=
  match s with
  | c :: rest =>
      if c = '-' || c = '•' || c = '*' then rest.dropWhile pyIsSpace else s
  | [] => s

/-- Embedding of `re.sub(r'^\d+\.\s*', '', line)`: drop leading digits, the dot, and
the whitespace after it, when that anchored pattern matches. -/
def stripNumberMark (s : Str) : Str :=
  if numberedStart s then
    (match s.dropWhile Char.isDigit with
     | '.' :: rest => rest.dropWhile pyIsSpace
     | rest => rest)
  else s

/-- The additive relevance score of a stripped line (daily_bot.py lines
1196-1209): +2 action keyword in the lowered line, +2 company pattern,
+1 bullet start, +1 numbered start. -/
def scoreLine (l : Str) : Nat :=
  (if actionKeywords.any (fun k => isSubstr k (pyLower l)) then 2 else 0)
    + (if companySearch l then 2 else 0)
    + (if bulletStart l then 1 else 0)
    + (if numberedStart l then 1 else 0)

/-- The cleaned text of an emitted line: bullet marker stripped, then
numbered marker stripped (lines 1213-1214). -/
def cleanLine (l : Str) : Str := stripNumberMark (stripBulletMark l)

/-- The candidate loop of `extract_news_items` (lines 1188-1224).  Each
line is stripped; lines shorter than 30 characters or already in
`seen_items` are skipped; a line scoring at least 2 is emitted (paired
with its stripped source line, which is what `seen_items` stores) and
its line added to `seen`. -/
def emitAux : List Str → List Str → List (Str × NewsItem)
  | [], _ => []
  | line :: rest, seen =>
      if (pyStrip line).length < 30 ∨ pyStrip line ∈ seen then emitAux rest seen
      else
        if 2 ≤ scoreLine (pyStrip line) then
          (pyStrip line,
            ⟨cleanLine (pyStrip line),
             extract_url_from_text (cleanLine (pyStrip line)),
             scoreLine (pyStrip line)⟩) :: emitAux rest (pyStrip line :: seen)
        else emitAux rest seen

/-- Python's stable `list.sort(key=lambda x: x['score'], reverse=True)`:
insertion places an item before the first strictly lower score, so equal
scores keep their original order. -/
def insertDesc (x : NewsItem) : List NewsItem → List NewsItem
  | [] => [x]
  | y :: ys => if y.score ≤ x.score then x :: y :: ys else y :: insertDesc x ys

/-- Stable descending sort by score. -/
def sortDesc : List NewsItem → List NewsItem
  | [] => []
  | x :: xs => insertDesc x (sortDesc xs)

/-- Embedding of `extract_news_items` (daily_bot.py lines 1161-1228):
clean the content, split it into candidate lines, run the scoring loop,
stable-sort by score descending, return the top `maxItems`. -/
def extract_news_items (content : Str) (maxItems : Nat) : List NewsItem :=
  ((emitAux (splitNews (clean_html content)) []).map Prod.snd
    |> sortDesc).take maxItems

/-- Telegram's hard message-length ceiling (daily_bot.py line 16). -/
def TELEGRAM_MAX_LENGTH : Nat := 4096

/-- A feedparser entry as `format_telegram_message` reads it: the four
keys it calls `.get` on, each possibly absent. -/
structure PyEntry where
  title : Option Str
  link : Option Str
  summary : Option Str
  description : Option Str
deriving DecidableEq

/-- Python `entry.get('summary', entry.get('description', ''))`. -/
def fallbackRaw (e : PyEntry) : Str :=
  (e.summary.orElse (fun _ => e.description)).getD []

/-- The fallback body text of the packer (lines 1303-1307): clean the raw
summary and truncate it to 197 characters plus `"..."` when longer than
200. -/
def truncFallback (e : PyEntry) : Str :=
  let s := clean_html (fallbackRaw e)
  if 200 < s.length then s.take 197 ++ ("...").data else s

/-- The numbered per-item blocks of the packer (lines 1288-1300):
`f"{i}\\. {escaped_summary}"`, an optional link line, and an empty line,
for the first five items, indices starting at 1. -/
def itemPartsGo : Nat → List NewsItem → List Str
  | _, [] => []
  | i, item :: rest =>
      let summary := create_punchy_summary item.text 80
      let base := (Nat.repr i).data ++ ("\\. ").data ++ escape_markdown_v2 summary
      let linkParts :=
        match item.url with
        | some u =>
            if u.isEmpty then []
            else [("   🔗 [Link](").data ++ escape_markdown_v2 u ++ (")").data]
        | none => []
      (base :: linkParts) ++ ([] :: itemPartsGo (i + 1) rest)

/-- One assembly pass of `format_telegram_message` (lines 1271-1318),
before the length check: header, item blocks or fallback body, footer
link, joined with newlines. -/
def buildMessage (e : PyEntry) (items : List NewsItem) : Str :=
  joinNL
    ([("🤖 *").data ++ escape_markdown_v2 (e.title.getD (("AI News Update").data))
        ++ ("*").data, []]
      ++ (match items with
          | _ :: _ => [("📰 *Top AI News:*").data, []] ++ itemPartsGo 1 (items.take 5)
          | [] =>
              if (fallbackRaw e).isEmpty then []
              else [escape_markdown_v2 (truncFallback e), []])
      ++ (if (e.link.getD []).isEmpty then []
          else [("📄 [Read full post](").data
            ++ escape_markdown_v2 (e.link.getD []) ++ (")").data]))

/-- Embedding of `format_telegram_message` (daily_bot.py lines 1271-1325).
The source recurses on itself with `news_items[:3]` whenever the built
message exceeds `TELEGRAM_MAX_LENGTH - 100`; since that recursion is not
well-founded (the argument stabilises after one truncation), the
embedding carries an explicit recursion-depth fuel and returns `none`
when the fuel runs out.  Any `some` result is a value the Python
function actually returns; an input on which every fuel yields `none` is
an input on which the Python function recurses forever (RecursionError). -/
def format_telegram_message : Nat → PyEntry → List NewsItem → Option Str
  | 0, _, _ => none
  | Nat.succ n, e, items =>
      if TELEGRAM_MAX_LENGTH - 100 < (buildMessage e items).length then
        format_telegram_message n e (items.take 3)
      else some (buildMessage e items)

/-- Modelled from the spec: the deduplication key of `RankedDigest`, "a
case-folded prefix of fixed length, e.g. first 30-50 characters".  The
code has no such notion; this definition exists to state the spec's
invariant against the code's output. -/
def dedupKeySpec (k : Nat) (s : Str) : Str := (s.take k).map Char.toLower

/-- Modelled from the spec: "stripping all dialect markup (backslashes
...)" from escaped text.  The code has no strip function; this removes
the backslashes the MarkdownV2 escaping dialect inserts. -/
def stripBackslashes (s : Str) : Str := s.filter (fun c => c ≠ '\\')

/-- Pointwise form of one escaping pass: what the fold of
`escape_markdown_v2` does to a single character. -/
def esc1 (c : Char) : Str := if c ∈ escapeChars then ['\\', c] else [c]

/-! ### Concrete inputs used by the counterexamples and witnesses -/

/-- Short text (77 chars, within the 80 budget) on which extraction
pattern 1 matches with a 50-character complement, so the summarizer
rewrites it although it already fits. -/
def c2text : Str := ("OpenAI announced ").data ++ List.replicate 60 'x'

/-- Text no extraction pattern matches. -/
def c2wtext : Str := ("hello world").data

/-- Two near-duplicate sentences sharing their first 55 characters. -/
def c3content : Str :=
  ("OpenAI announced a new model with big improvements for everyone today. OpenAI announced a new model with big improvements for nobody yesterday").data

/-- The first candidate extracted from `c3content`. -/
def c3a : Str :=
  ("OpenAI announced a new model with big improvements for everyone today.").data

/-- The second candidate extracted from `c3content`. -/
def c3b : Str :=
  ("OpenAI announced a new model with big improvements for nobody yesterday").data

/-- A 34-character candidate with no terminal punctuation. -/
def c4content : Str := ("OpenAI announced a new model today").data

/-- Content the segmenter splits in two, so neither candidate is the
whole normalized text. -/
def c5content : Str := ("Hello there friend. Goodbye now").data

/-- Content with no split delimiter at all. -/
def c5wtext : Str := ("greetings and farewell").data

/-- Three short tokens; with `maxLength = 2` the ellipsis fallback
returns a 3-character string. -/
def c6text : Str := ("ab cd ef").data

/-- Witness input for the amended length bound. -/
def c6wtext : Str := ("plain filler words used here").data

/-- Entry with every key absent: the packer uses all defaults. -/
def c7entry : PyEntry := ⟨none, none, none, none⟩

/-- The message the packer returns for `c7entry` with no items. -/
def c7msg : Str := ("🤖 *AI News Update*\n").data

/-- A string containing a backslash, which `escape_markdown_v2` does not
escape. -/
def c8bad : Str := ("a\\b").data

/-- A backslash-free string with several escaped characters. -/
def c8good : Str := ("a.b!(c)+d").data

/-- Entry whose title alone pushes the built message over the ceiling:
3992 characters, so the empty-items message has length 3997 > 3996.
On it the source recurses forever (`news_items[:3]` is a fixpoint). -/
def c1entry : PyEntry := ⟨some (List.replicate 3992 'a'), none, none, none⟩

/-- Entry with an over-long title and a present summary: zero candidates
plus an oversized message, so the packer never returns. -/
def c9entry : PyEntry :=
  ⟨some (List.replicate 3992 'b'), none, some (("Big launch happened").data), none⟩

/-- Entry with only a summary: the fallback branch fires and the packer
returns. -/
def c9wentry : PyEntry := ⟨none, none, some (("Big news today").data), none⟩

/-- The message the packer returns for `c9wentry` with no items. -/
def c9wmsg : Str := ("🤖 *AI News Update*\n\nBig news today\n").data

/-- A single 14-character token: no pattern match, no sentence boundary,
first word longer than `maxLength - 4`. -/
def c10text : Str := ("abcdefghijklmn").data

set_option maxRecDepth 40000

/-! ### Helper lemmas -/

theorem dropWhile_length_le (p : Char → Bool) (l : Str) :
    (l.dropWhile p).length ≤ l.length := by
  induction l with
  | nil => simp
  | cons c r ih =>
      by_cases h : p c
      · rw [List.dropWhile_cons, if_pos h]
        refine le_trans ih ?_
        simp
      · rw [List.dropWhile_cons, if_neg h]

theorem pyStrip_length_le (s : Str) : (pyStrip s).length ≤ s.length := by
  unfold pyStrip
  rw [List.length_reverse]
  refine le_trans (dropWhile_length_le _ _) ?_
  rw [List.length_reverse]
  exact dropWhile_length_le _ _

theorem tryPatternsGo_length_le (text : Str) (m : Int) :
    ∀ (ps : List RE) (s : Str), tryPatternsGo text m ps = some s →
      (s.length : Int) ≤ m := by
  intro ps
  induction ps with
  | nil => intro s h; simp [tryPatternsGo] at h
  | cons p pr ih =>
      intro s h
      rw [tryPatternsGo] at h
      cases hs : searchRE p text with
      | none => rw [hs] at h; exact ih s h
      | some gs =>
          rw [hs] at h
          dsimp only at h
          split at h
          · cases h; assumption
          · exact ih s h

theorem wordAccum_length_le (m : Int) :
    ∀ (ws : List Str) (acc : Str), (acc.length : Int) ≤ m - 3 →
      ((wordAccum m ws acc).length : Int) ≤ m - 3 := by
  intro ws
  induction ws with
  | nil => intro acc h; simpa [wordAccum] using h
  | cons w wr ih =>
      intro acc h
      rw [wordAccum]
      split
      · apply ih
        rename_i hc
        simp only [List.length_append, List.length_cons, List.length_nil]
        push_cast
        omega
      · exact h

theorem wordTrunc_length_le (text : Str) (m : Int) (h : 3 ≤ m) :
    ((wordTrunc text m).length : Int) ≤ m := by
  unfold wordTrunc
  have h1 : ((wordAccum m (splitWs text) []).length : Int) ≤ m - 3 :=
    wordAccum_length_le m (splitWs text) [] (by simp; omega)
  have h2 : ((pyStrip (wordAccum m (splitWs text) [])).length : Int)
      ≤ ((wordAccum m (splitWs text) []).length : Int) := by
    exact_mod_cast pyStrip_length_le _
  simp only [List.length_append, List.length_cons, List.length_nil]
  push_cast
  omega

theorem wordTrunc_breaks_immediately (text : Str) (m : Int)
    (h : ∀ w ws, splitWs text = w :: ws → m - 4 < (w.length : Int)) :
    wordTrunc text m = ("...").data := by
  unfold wordTrunc
  cases hww : splitWs text with
  | nil => simp [wordAccum, pyStrip]
  | cons w ws =>
      have hw := h w ws hww
      have hacc : wordAccum m (w :: ws) [] = [] := by
        simp only [wordAccum]
        rw [if_neg]
        simp only [List.length_nil]
        push_cast
        omega
      rw [hacc]
      simp [pyStrip]

/-! ### Claim C2 -/

/-- Claim C2 (counterexample): `c2text` is 77 characters long, within the
budget of 80, yet `create_punchy_summary` does not return it unchanged —
extraction pattern 1 fires first and rewrites it to a 67-character
string, so the identity case is not the first policy tier tried. -/
theorem claim_C2_counterexample :
    (c2text.length : Int) ≤ 80 ∧ create_punchy_summary c2text 80 ≠ c2text :=
  ⟨by decide, by decide⟩

/-- Claim C2 (amended): when no extraction pattern yields a match that
fits `maxLength` and `len(text) ≤ maxLength`, `create_punchy_summary`
returns `text` unchanged; the identity tier is reached only after the
extraction patterns. -/
theorem claim_C2_amended (text : Str) (m : Int)
    (h1 : tryPatterns text m = none) (h2 : (text.length : Int) ≤ m) :
    create_punchy_summary text m = text := by
  rw [create_punchy_summary, h1]
  exact if_pos h2

/-- Claim C2 (witness): on `"hello world"` with budget 80 no pattern
matches, the length condition holds, and the summarizer is the identity. -/
theorem claim_C2_witness :
    tryPatterns c2wtext 80 = none ∧ (c2wtext.length : Int) ≤ 80 ∧
      create_punchy_summary c2wtext 80 = c2wtext :=
  ⟨by decide, by decide, claim_C2_amended c2wtext 80 (by decide) (by decide)⟩

/-! ### Claim C6 -/

/-- Claim C6 (counterexample): `"ab cd ef"` is three short tokens — not a
degenerate single over-long token — yet with `maxLength = 2` the
summarizer returns `"..."` of length 3 > 2. -/
theorem claim_C6_counterexample :
    create_punchy_summary c6text 2 = ("...").data ∧
      (2 : Int) < ((create_punchy_summary c6text 2).length : Int) ∧
      (splitWs c6text).map List.length = [2, 2, 2] :=
  ⟨by decide, by decide, by decide⟩

/-- Claim C6 (amended): for every text and every `maxLength ≥ 3` the
result of `create_punchy_summary` has length at most `maxLength`, with no
exception at all — in particular the single over-long-token case yields
`"..."` rather than overflowing.  Only degenerate budgets below 3 can be
exceeded (by the 3-character ellipsis). -/
theorem claim_C6_amended (text : Str) (m : Int) (h : 3 ≤ m) :
    ((create_punchy_summary text m).length : Int) ≤ m := by
  rw [create_punchy_summary]
  cases htp : tryPatterns text m with
  | some s =>
      dsimp only
      exact tryPatternsGo_length_le text m _ s htp
  | none =>
      dsimp only
      split
      · assumption
      · cases hs : splitSent text with
        | nil => exact wordTrunc_length_le text m h
        | cons s0 r =>
            dsimp only
            split
            · refine le_trans ?_ (by assumption)
              exact_mod_cast pyStrip_length_le s0
            · exact wordTrunc_length_le text m h

/-- Claim C6 (witness): the amended bound applied at a concrete input. -/
theorem claim_C6_witness :
    ((create_punchy_summary c6wtext 10).length : Int) ≤ 10 :=
  claim_C6_amended c6wtext 10 (by decide)

/-! ### Claim C10 -/

/-- Claim C10: when the text exceeds the budget, no extraction pattern
yields a fitting match, the first `[.!?]`-sentence exceeds the budget,
and the first whitespace word is longer than `maxLength - 4`, the
summarizer returns exactly the three-character string `"..."` — the
whole content is discarded with no error and no overflow. -/
theorem claim_C10 (text : Str) (m : Int)
    (h1 : m < (text.length : Int))
    (h2 : tryPatterns text m = none)
    (h3 : m < (((splitSent text).headD []).length : Int))
    (h4 : ∀ w ws, splitWs text = w :: ws → m - 4 < (w.length : Int)) :
    create_punchy_summary text m = ("...").data := by
  rw [create_punchy_summary, h2]
  dsimp only
  rw [if_neg (not_le.mpr h1)]
  cases hs : splitSent text with
  | nil => exact wordTrunc_breaks_immediately text m h4
  | cons s0 r =>
      dsimp only
      rw [hs] at h3
      simp only [List.headD_cons] at h3
      rw [if_neg (not_le.mpr h3)]
      exact wordTrunc_breaks_immediately text m h4

/-- Claim C10 (witness): the single token `"abcdefghijklmn"` with budget
10 satisfies all four hypotheses and collapses to `"..."`. -/
theorem claim_C10_witness :
    (10 : Int) < (c10text.length : Int) ∧
      create_punchy_summary c10text 10 = ("...").data :=
  ⟨by decide, claim_C10 c10text 10 (by decide) (by decide) (by decide)
    (by intro w ws h; rw [show splitWs c10text = [c10text] from by decide] at h;
        cases h; decide)⟩

/-! ### Claim C5 -/

theorem splitNewsAux_ne_nil :
    ∀ (s : Str) (b1 b2 : Bool) (acc : Str), splitNewsAux b1 b2 acc s ≠ [] := by
  intro s
  induction s with
  | nil => intro b1 b2 acc; cases b1 <;> cases b2 <;> simp [splitNewsAux]
  | cons c rest ih =>
      intro b1 b2 acc
      cases b2 with
      | true =>
          rw [splitNewsAux]
          split
          · exact ih b1 true acc
          · exact ih (sentEnd c) false (c :: acc)
      | false =>
          rw [splitNewsAux]
          split
          · simp
          · split
            · simp
            · exact ih (sentEnd c) false (c :: acc)

theorem splitNewsAux_singleton :
    ∀ (s : Str) (b1 : Bool) (acc : Str),
      (splitNewsAux b1 false acc s).length = 1 →
        splitNewsAux b1 false acc s = [acc.reverse ++ s] := by
  intro s
  induction s with
  | nil => intro b1 acc _; cases b1 <;> simp [splitNewsAux]
  | cons c rest ih =>
      intro b1 acc h
      by_cases hn : c = '\n'
      · exfalso
        rw [splitNewsAux, if_pos hn, List.length_cons] at h
        cases hh : splitNewsAux false false ([] : Str) rest with
        | nil => exact splitNewsAux_ne_nil rest false false [] hh
        | cons x xs => rw [hh] at h; simp at h
      · by_cases hsep : (b1 && pyIsSpace c && wsRunEndsUpper (c :: rest)) = true
        · exfalso
          rw [splitNewsAux, if_neg hn, if_pos hsep, List.length_cons] at h
          cases hh : splitNewsAux false true ([] : Str) rest with
          | nil => exact splitNewsAux_ne_nil rest false true [] hh
          | cons x xs => rw [hh] at h; simp at h
        · rw [splitNewsAux, if_neg hn, if_neg hsep] at h ⊢
          rw [ih (sentEnd c) (c :: acc) h]
          simp

/-- Claim C5 (counterexample): the segmenter does not append the whole
normalized text as a fallback candidate — for `c5content` (which
`clean_html` leaves unchanged) the split produces two pieces and the
whole text is not among the candidates, stripped or not. -/
theorem claim_C5_counterexample :
    clean_html c5content = c5content ∧
      clean_html c5content ∉ splitNews (clean_html c5content) ∧
      clean_html c5content ∉ (splitNews (clean_html c5content)).map pyStrip :=
  ⟨by decide, by decide, by decide⟩

/-- Claim C5 (amended): the whole text is a candidate exactly in the
degenerate case — when the splitter finds no delimiter, its single
output piece is the whole text; no unconditional fallback candidate is
appended, so split content can lose the whole-text candidate. -/
theorem claim_C5_amended (s : Str) (h : (splitNews s).length = 1) :
    splitNews s = [s] := by
  have := splitNewsAux_singleton s false [] h
  simpa [splitNews] using this

/-- Claim C5 (witness): delimiter-free content is returned whole as the
single candidate. -/
theorem claim_C5_witness :
    (splitNews c5wtext).length = 1 ∧ splitNews c5wtext = [c5wtext] :=
  ⟨by decide, claim_C5_amended c5wtext (by decide)⟩

/-! ### Claims C3 and C4 -/

theorem emitAux_nodup_and_fresh :
    ∀ (lines seen : List Str),
      ((emitAux lines seen).map Prod.fst).Nodup ∧
        ∀ l ∈ (emitAux lines seen).map Prod.fst, l ∉ seen := by
  intro lines
  induction lines with
  | nil => intro seen; simp [emitAux]
  | cons line rest ih =>
      intro seen
      rw [emitAux]
      split
      · exact ih seen
      · rename_i hskip
        split
        · simp only [List.map_cons, List.nodup_cons, List.mem_map, List.mem_cons]
          obtain ⟨ihn, ihf⟩ := ih (pyStrip line :: seen)
          refine ⟨⟨?_, ihn⟩, ?_⟩
          · intro hmem
            rcases hmem with ⟨pr, hpr, hfst⟩
            have := ihf pr.1 (List.mem_map_of_mem Prod.fst hpr)
            rw [hfst] at this
            exact this (List.mem_cons_self _ _)
          · intro l hl
            rcases hl with hl | ⟨pr, hpr, hfst⟩
            · subst hl
              intro hmem
              exact hskip (Or.inr hmem)
            · have := ihf pr.1 (List.mem_map_of_mem Prod.fst hpr)
              rw [hfst] at this
              intro hmem
              exact this (List.mem_cons_of_mem _ hmem)
        · exact ih seen

/-- Claim C3 (counterexample): `extract_news_items` keeps two items whose
case-folded prefixes agree at every fixed length up to 50 (the spec's
30-50 range) and where neither text is a substring of the other, so the
spec's deduplication-key invariant fails on the code's output. -/
theorem claim_C3_counterexample :
    extract_news_items c3content 5 = [⟨c3a, none, 4⟩, ⟨c3b, none, 4⟩] ∧
      dedupKeySpec 30 c3a = dedupKeySpec 30 c3b ∧
      dedupKeySpec 50 c3a = dedupKeySpec 50 c3b ∧
      c3a ≠ c3b ∧
      isSubstr c3a c3b = false ∧ isSubstr c3b c3a = false :=
  ⟨by decide, by decide, by decide, by decide, by decide, by decide⟩

/-- Claim C3 (amended): the only deduplication the scorer performs is on
the exact stripped candidate line (`seen_items`): no candidate line is
emitted twice, the first occurrence winning; near-duplicates that differ
anywhere — even sharing a 50-character case-folded prefix — are all
kept. -/
theorem claim_C3_amended (content : Str) :
    ((emitAux (splitNews (clean_html content)) []).map Prod.fst).Nodup :=
  (emitAux_nodup_and_fresh (splitNews (clean_html content)) []).1

theorem mem_insertDesc (x y : NewsItem) :
    ∀ (l : List NewsItem), y ∈ insertDesc x l → y = x ∨ y ∈ l := by
  intro l
  induction l with
  | nil => intro h; simpa [insertDesc] using h
  | cons z zs ih =>
      intro h
      rw [insertDesc] at h
      split at h
      · rcases List.mem_cons.mp h with h | h
        · exact Or.inl h
        · exact Or.inr h
      · rcases List.mem_cons.mp h with h | h
        · exact Or.inr (by rw [h]; exact List.mem_cons_self _ _)
        · rcases ih h with h | h
          · exact Or.inl h
          · exact Or.inr (List.mem_cons_of_mem _ h)

theorem mem_sortDesc (y : NewsItem) :
    ∀ (l : List NewsItem), y ∈ sortDesc l → y ∈ l := by
  intro l
  induction l with
  | nil => intro h; simp [sortDesc] at h
  | cons x xs ih =>
      intro h
      rw [sortDesc] at h
      rcases mem_insertDesc x y (sortDesc xs) h with h | h
      · rw [h]; exact List.mem_cons_self _ _
      · exact List.mem_cons_of_mem _ (ih h)

theorem emitAux_score_ge :
    ∀ (lines seen : List Str) (pr : Str × NewsItem),
      pr ∈ emitAux lines seen → 2 ≤ pr.2.score := by
  intro lines
  induction lines with
  | nil => intro seen pr h; simp [emitAux] at h
  | cons line rest ih =>
      intro seen pr h
      rw [emitAux] at h
      split at h
      · exact ih seen pr h
      · split at h
        · rename_i hsc
          rcases List.mem_cons.mp h with h | h
          · rw [h]
            exact hsc
          · exact ih _ pr h
        · exact ih seen pr h

/-- Claim C4 (counterexample): a 34-character candidate with no terminal
`.`, `!`, or `?` survives scoring and appears in the scorer's output —
the code has no post-scoring fragment rejection. -/
theorem claim_C4_counterexample :
    extract_news_items c4content 5 = [⟨c4content, none, 4⟩] ∧
      c4content.length < 60 ∧
      sentEnd (c4content.getLastD ' ') = false :=
  ⟨by decide, by decide, by decide⟩

/-- Claim C4 (amended): the only rejections are pre-scoring (stripped
lines shorter than 30 characters, repeated lines) and the inclusion
threshold itself: every item the scorer outputs has score at least 2,
regardless of its final punctuation or length. -/
theorem claim_C4_amended (content : Str) (maxItems : Nat) (item : NewsItem)
    (h : item ∈ extract_news_items content maxItems) : 2 ≤ item.score := by
  unfold extract_news_items at h
  have h1 : item ∈ sortDesc
      ((emitAux (splitNews (clean_html content)) []).map Prod.snd) :=
    List.take_subset _ _ h
  have h2 := mem_sortDesc item _ h1
  rcases List.mem_map.mp h2 with ⟨pr, hpr, hsnd⟩
  have := emitAux_score_ge (splitNews (clean_html content)) [] pr hpr
  rw [hsnd] at this
  exact this

/-- Claim C4 (witness): the amended bound applied to the concrete item
extracted from `c4content`. -/
theorem claim_C4_witness : 2 ≤ (⟨c4content, none, 4⟩ : NewsItem).score :=
  claim_C4_amended c4content 5 ⟨c4content, none, 4⟩ (by decide)

/-! ### Claim C8 -/

theorem pyReplaceChar_append (o : Char) (n : Str) :
    ∀ (a b : Str),
      pyReplaceChar o n (a ++ b) = pyReplaceChar o n a ++ pyReplaceChar o n b := by
  intro a b
  induction a with
  | nil => rfl
  | cons c r ih => simp [pyReplaceChar, ih]

theorem escFold_append (cs : List Char) :
    ∀ (a b : Str),
      cs.foldl (fun s c => pyReplaceChar c ['\\', c] s) (a ++ b) =
        cs.foldl (fun s c => pyReplaceChar c ['\\', c] s) a ++
          cs.foldl (fun s c => pyReplaceChar c ['\\', c] s) b := by
  induction cs with
  | nil => intro a b; rfl
  | cons c cr ih =>
      intro a b
      simp only [List.foldl_cons]
      rw [pyReplaceChar_append, ih]

theorem escFold_skips (c : Char) :
    ∀ (cs : List Char), c ∉ cs →
      cs.foldl (fun s o => pyReplaceChar o ['\\', o] s) [c] = [c] := by
  intro cs
  induction cs with
  | nil => intro _; rfl
  | cons o oc ih =>
      intro h
      have hco : ¬(c = o) := fun e => h (List.mem_cons.mpr (Or.inl e))
      simp only [List.foldl_cons]
      rw [show pyReplaceChar o ['\\', o] [c] = [c] from by
        simp [pyReplaceChar, hco]]
      exact ih (fun hm => h (List.mem_cons_of_mem _ hm))

theorem escape_single (c : Char) : escape_markdown_v2 [c] = esc1 c := by
  by_cases h : c ∈ escapeChars
  · rw [esc1, if_pos h]
    fin_cases h <;> decide
  · rw [esc1, if_neg h]
    exact escFold_skips c escapeChars h

theorem escape_cons (c : Char) (t : Str) :
    escape_markdown_v2 (c :: t) = esc1 c ++ escape_markdown_v2 t := by
  have h0 : (c :: t) = [c] ++ t := rfl
  rw [h0]
  unfold escape_markdown_v2
  rw [escFold_append escapeChars [c] t]
  have h := escape_single c
  unfold escape_markdown_v2 at h
  rw [h]

/-- Claim C8 (counterexample): the escaping round-trip fails on text that
itself contains a backslash — `escape_markdown_v2` does not escape the
backslash, so stripping the dialect's backslashes loses it and the
original visible characters are not recovered. -/
theorem claim_C8_counterexample :
    stripBackslashes (escape_markdown_v2 c8bad) ≠ c8bad := by decide

/-- Claim C8 (amended): for every interpolated string containing no
backslash, escaping it and then stripping all backslash markup recovers
exactly the original text; the unescaped-backslash case is the only
failure of the round-trip. -/
theorem claim_C8_amended (t : Str) (h : '\\' ∉ t) :
    stripBackslashes (escape_markdown_v2 t) = t := by
  induction t with
  | nil => rfl
  | cons c r ih =>
      have hc : ¬(c = '\\') := fun e => h (List.mem_cons.mpr (Or.inl e.symm))
      rw [escape_cons]
      unfold stripBackslashes
      rw [List.filter_append]
      have h1 : (esc1 c).filter (fun x => x ≠ '\\') = [c] := by
        rw [esc1]
        by_cases hm : c ∈ escapeChars
        · rw [if_pos hm]
          simp [List.filter, hc]
        · rw [if_neg hm]
          simp [List.filter, hc]
      rw [h1]
      have h2 := ih (fun hm => h (List.mem_cons_of_mem _ hm))
      unfold stripBackslashes at h2
      rw [h2]
      rfl

/-- Claim C8 (witness): a backslash-free string with several escapable
characters round-trips exactly. -/
theorem claim_C8_witness :
    '\\' ∉ c8good ∧ stripBackslashes (escape_markdown_v2 c8good) = c8good :=
  ⟨by decide, claim_C8_amended c8good (by decide)⟩

/-! ### Claims C1, C7 and C9 -/

theorem escFold_fixes (t : Str) :
    ∀ (cs : List Char), (∀ o ∈ cs, pyReplaceChar o ['\\', o] t = t) →
      cs.foldl (fun s o => pyReplaceChar o ['\\', o] s) t = t := by
  intro cs
  induction cs with
  | nil => intro _; rfl
  | cons o oc ih =>
      intro h
      simp only [List.foldl_cons]
      rw [h o (List.mem_cons_self _ _)]
      exact ih (fun o' ho' => h o' (List.mem_cons_of_mem _ ho'))

theorem pyReplaceChar_replicate (o c : Char) (n : Str) (k : Nat) (h : ¬(c = o)) :
    pyReplaceChar o n (List.replicate k c) = List.replicate k c := by
  induction k with
  | zero => rfl
  | succ k ih => simp [List.replicate_succ, pyReplaceChar, h, ih]

theorem escape_replicate (c : Char) (k : Nat) (h : c ∉ escapeChars) :
    escape_markdown_v2 (List.replicate k c) = List.replicate k c := by
  unfold escape_markdown_v2
  refine escFold_fixes _ escapeChars ?_
  intro o ho
  refine pyReplaceChar_replicate o c _ k ?_
  intro e
  exact h (e ▸ ho)

theorem build_title_only_len (k : Nat) (c : Char) (hc : c ∉ escapeChars) :
    (buildMessage ⟨some (List.replicate k c), none, none, none⟩ []).length = k + 5 := by
  have he := escape_replicate c k hc
  simp only [buildMessage, Option.getD_some, Option.getD_none, he, fallbackRaw,
    Option.orElse_none, Option.getD_none, List.isEmpty_nil, List.append_nil,
    List.nil_append, if_true]
  simp [joinNL, List.length_append]

theorem build_title_fallback_len (k : Nat) (c : Char) (hc : c ∉ escapeChars)
    (s : Str) (hs : s ≠ []) :
    (buildMessage ⟨some (List.replicate k c), none, some s, none⟩ []).length =
      k + (escape_markdown_v2
        (truncFallback ⟨some (List.replicate k c), none, some s, none⟩)).length + 7 := by
  have he := escape_replicate c k hc
  have hfe : fallbackRaw ⟨some (List.replicate k c), none, some s, none⟩ = s := rfl
  have hne : (fallbackRaw ⟨some (List.replicate k c), none, some s, none⟩).isEmpty
      = false := by
    rw [hfe]
    cases s with
    | nil => exact absurd rfl hs
    | cons a l => rfl
  simp only [buildMessage, Option.getD_some, Option.getD_none, he, hne,
    List.isEmpty_nil, List.append_nil, List.nil_append, if_true, Bool.false_eq_true,
    if_false]
  simp [joinNL, List.length_append]
  omega

/-- When even the empty-items message exceeds the ceiling, the source
recursion never returns: `news_items[:3]` with no items is a fixpoint,
so every recursion depth yields `none` (Python: RecursionError). -/
theorem format_stuck (e : PyEntry)
    (h : TELEGRAM_MAX_LENGTH - 100 < (buildMessage e []).length) :
    ∀ fuel, format_telegram_message fuel e [] = none := by
  intro fuel
  induction fuel with
  | zero => rfl
  | succ n ih =>
      rw [format_telegram_message, if_pos h]
      exact ih

theorem format_empty_returns_build :
    ∀ (fuel : Nat) (e : PyEntry) (m : Str),
      format_telegram_message fuel e [] = some m → m = buildMessage e [] := by
  intro fuel
  induction fuel with
  | zero => intro e m h; exact absurd h (by simp [format_telegram_message])
  | succ n ih =>
      intro e m h
      rw [format_telegram_message] at h
      split at h
      · exact ih e m h
      · cases h; rfl

theorem joinNL_infix (x : Str) :
    ∀ (parts : List Str), x ∈ parts → x <:+: joinNL parts := by
  intro parts
  induction parts with
  | nil => intro h; simp at h
  | cons p rest ih =>
      intro h
      rcases List.mem_cons.mp h with h | h
      · subst h
        cases rest with
        | nil => exact ⟨[], [], by simp [joinNL]⟩
        | cons q qs => exact ⟨[], '\n' :: joinNL (q :: qs), by simp [joinNL]⟩
      · cases rest with
        | nil => simp at h
        | cons q qs =>
            obtain ⟨s, t, hst⟩ := ih h
            refine ⟨p ++ '\n' :: s, t, ?_⟩
            have hj : joinNL (p :: q :: qs) = p ++ '\n' :: joinNL (q :: qs) := rfl
            rw [hj, ← hst]
            simp [List.append_assoc]

theorem joinNL_cons_cons_ne_nil (a b : Str) (rest : List Str) :
    joinNL (a :: b :: rest) ≠ [] := by
  intro h
  have hj : joinNL (a :: b :: rest) = a ++ '\n' :: joinNL (b :: rest) := rfl
  rw [hj] at h
  rcases List.append_eq_nil.mp h with ⟨h1, h2⟩
  cases h2

/-- Claim C1: the packer's overlength recovery does not terminate for
every input.  On an entry whose title alone makes the assembled message
exceed the ceiling minus the margin, with no items to drop, the source's
`format_telegram_message(entry, news_items[:3])` self-call recurses with
unchanged arguments: the embedding returns `none` at every recursion
depth, i.e. the Python function never returns (RecursionError), and no
hard truncation with a trailing marker is applied inside the packer. -/
theorem claim_C1_nontermination :
    ∀ fuel, format_telegram_message fuel c1entry [] = none := by
  apply format_stuck
  unfold c1entry
  rw [build_title_only_len 3992 'a' (by decide)]
  decide

/-- Claim C7: every message the packer actually returns has length at
most `TELEGRAM_MAX_LENGTH` (indeed at most 4096 - 100): the returning
branch is guarded by the length check. -/
theorem claim_C7_packer_bound :
    ∀ (fuel : Nat) (e : PyEntry) (items : List NewsItem) (m : Str),
      format_telegram_message fuel e items = some m →
        m.length ≤ TELEGRAM_MAX_LENGTH := by
  intro fuel
  induction fuel with
  | zero => intro e items m h; exact absurd h (by simp [format_telegram_message])
  | succ n ih =>
      intro e items m h
      rw [format_telegram_message] at h
      split at h
      · exact ih e (items.take 3) m h
      · rename_i hc
        cases h
        simp only [TELEGRAM_MAX_LENGTH] at hc ⊢
        omega

/-- Claim C7 (witness): a concrete packed message satisfies the bound. -/
theorem claim_C7_witness : c7msg.length ≤ TELEGRAM_MAX_LENGTH :=
  claim_C7_packer_bound 1 c7entry [] c7msg (by decide)

/-- Claim C9 (counterexample): with zero candidates and a non-empty raw
summary, the packer can still fail to produce any message — on an entry
whose title pushes even the fallback message over the ceiling, the
recursion (modelled with fuel 3, beyond which the argument is a
fixpoint, see `format_stuck`) never returns, contradicting "never
returns an empty string or raises an exception". -/
theorem claim_C9_counterexample :
    fallbackRaw c9entry ≠ [] ∧ format_telegram_message 3 c9entry [] = none := by
  constructor
  · decide
  · apply format_stuck
    unfold c9entry
    rw [build_title_fallback_len 3992 'b' (by decide)
      (("Big launch happened").data) (by decide)]
    unfold TELEGRAM_MAX_LENGTH
    omega

/-- Claim C9 (amended): whenever the packer does return with zero
candidates and the entry has a non-empty raw summary/description, the
message is non-empty and contains the escaped, cleaned, 200-truncated
fallback summary as a segment; but an entry oversized even at zero items
makes the packer recurse without returning. -/
theorem claim_C9_amended (fuel : Nat) (e : PyEntry) (m : Str)
    (h1 : format_telegram_message fuel e [] = some m)
    (h2 : fallbackRaw e ≠ []) :
    m ≠ [] ∧ escape_markdown_v2 (truncFallback e) <:+: m := by
  have hm := format_empty_returns_build fuel e m h1
  subst hm
  have hne : (fallbackRaw e).isEmpty = false := by
    cases hfr : fallbackRaw e with
    | nil => exact absurd hfr h2
    | cons a l => rfl
  rw [buildMessage]
  have hnc : ¬((fallbackRaw e).isEmpty = true) := by
    rw [hne]; exact Bool.false_ne_true
  rw [if_neg hnc]
  constructor
  · exact joinNL_cons_cons_ne_nil _ _ _
  · apply joinNL_infix
    exact List.mem_append_left _ (List.mem_append_right _ (List.mem_cons_self _ _))

/-- Claim C9 (witness): a no-item entry with a short summary yields a
concrete non-empty message containing its fallback text. -/
theorem claim_C9_witness :
    c9wmsg ≠ [] ∧ escape_markdown_v2 (truncFallback c9wentry) <:+: c9wmsg :=
  claim_C9_amended 1 c9wentry c9wmsg (by decide) (by decide)
